import Mathlib

/-!
Shallow embedding of `hydroeval/hydroeval.py` (the `evaluator` orchestration
routine) and, where the objective-function module is referenced by the spec
but absent from the sources, spec-modelled definitions of the formulas.

Modelling conventions:
* a numpy float is `FP`: the missing-value sentinel `nan` or an exact value
  (infinities are not modelled; no claim below depends on them);
* a numpy array is `NDArray`: 1D (list of values) or 2D (list of rows);
  arrays of more than two dimensions are outside the model, so the
  `more than 2 dimensions` branches of the source cannot fire here;
* `np.log` and `np.sqrt` are transcendental on floats, so the evaluator is
  parameterised by the element-wise primitives `lg` and `sq`;
* `1.0 / x` is rational and embedded as exact division (`FP.div`); the
  float behaviour at `x = 0` (infinity) is outside the rational carrier,
  and no claim below depends on it.
-/

namespace HydroEval

/-- A numpy float value: the missing-value sentinel `numpy.nan` or an
(idealised, exact) numeric value. -/
inductive FP where
  | nan : FP
  | val (q : ℚ) : FP
deriving DecidableEq, Repr

/-- `np.isnan` on one value. -/
def FP.isnan : FP → Bool
  | .nan => true
  | .val _ => false

/-- Python truthiness of a float: `0.0` is falsy, every other float
(including `nan`) is truthy. -/
def FP.truthy : FP → Bool
  | .nan => true
  | .val q => decide (q ≠ 0)

/-- Float addition with nan propagation. -/
def FP.add : FP → FP → FP
  | .val a, .val b => .val (a + b)
  | _, _ => .nan

/-- Float multiplication with nan propagation. -/
def FP.mul : FP → FP → FP
  | .val a, .val b => .val (a * b)
  | _, _ => .nan

/-- Float division with nan propagation (exact rational division on values;
see the module comment for the convention at a zero divisor). -/
def FP.div : FP → FP → FP
  | .val a, .val b => .val (a / b)
  | _, _ => .nan

/-- `np.mean` of a list of values: nan for an empty list, nan-propagating
sum divided by the length otherwise. -/
def FP.mean (l : List FP) : FP :=
  if l.length = 0 then .nan
  else FP.div (l.foldl FP.add (FP.val 0)) (FP.val l.length)

/-- A 1D or 2D numpy array (2D stored as a list of rows). -/
inductive NDArray where
  | one (data : List FP)
  | two (data : List (List FP))
deriving DecidableEq, Repr

/-- Number of columns of a 2D array, i.e. `shape[1]` (length of the first
row; numpy arrays are rectangular). -/
def cols (m : List (List FP)) : Nat := (m.headD []).length

/-- numpy transpose of a (rectangular) 2D array. -/
def transposeM (m : List (List FP)) : List (List FP) :=
  (List.range (cols m)).map (fun j => m.map (fun r => r.getD j FP.nan))

/-- numpy `.T`: the identity on 1D arrays, matrix transpose on 2D arrays. -/
def NDArray.T : NDArray → NDArray
  | .one l => .one l
  | .two m => .two (transposeM m)

/-- `m` is a rectangular matrix with `c` columns (every numpy 2D array is
rectangular). -/
def Rect (m : List (List FP)) (c : Nat) : Prop := ∀ r ∈ m, r.length = c

/-- Shape normalisation applied by `evaluator` to both `evaluation`
(lines 103-109) and `simulations` (lines 116-122): a 1D array is reshaped
into a single column (`np.reshape(a, (a.size, 1))`, for either axis), and a
2D array is taken as-is for `axis = 0` and transposed for `axis = 1`. -/
def normShape (a : NDArray) (axis : Nat) : List (List FP) :=
  match a with
  | .one l => l.map (fun v => [v])
  | .two m => if axis = 0 then m else transposeM m

/-- Row selection by a boolean mask: numpy boolean indexing `m[mask, :]`. -/
def maskFilter {α : Type} (mask : List Bool) (rows : List α) : List α :=
  ((mask.zip rows).filter (fun p => p.1)).map (fun p => p.2)

/-- The deletion mask `~np.isnan(my_eval[:, 0])` (`evaluator`,
lines 133-134): true on rows whose evaluation value is not nan. -/
def delMask (ev : List (List FP)) : List Bool :=
  ev.map (fun r => !(FP.isnan (r.headD (FP.val 0))))

/-- Pairwise deletion (`evaluator`, lines 131-134): the mask of rows whose
evaluation value is not nan is applied to the rows of both matrices. -/
def pairwiseDelete (simu ev : List (List FP)) :
    List (List FP) × List (List FP) :=
  (maskFilter (delMask ev) simu, maskFilter (delMask ev) ev)

/-- Python truthiness of the optional `epsilon` argument
(`if not epsilon:`, lines 138 and 144): `None` and `0.0` are falsy, any
other float (including nan) is truthy. -/
def epsTruthy : Option FP → Bool
  | none => false
  | some v => v.truthy

/-- Element-wise map over a 2D array. -/
def mapMat (f : FP → FP) (m : List (List FP)) : List (List FP) :=
  m.map (fun r => r.map f)

/-- The default epsilon `0.01 * np.mean(my_eval)` (`evaluator`, lines 141
and 147), computed on the post-deletion evaluation matrix. -/
def defaultEps (ev : List (List FP)) : FP :=
  FP.mul (FP.val (1 / 100)) (FP.mean ev.flatten)

/-- The transform stage of `evaluator` (lines 136-150), parameterised by the
element-wise `np.log` and `np.sqrt` primitives `lg` and `sq`; an
unrecognised transform string falls through with no transformation. -/
def applyTransform (lg sq : FP → FP) (transform : Option String)
    (epsilon : Option FP) (simu ev : List (List FP)) :
    List (List FP) × List (List FP) :=
  if transform = some "log" then
    let eps := if !(epsTruthy epsilon) then defaultEps ev else epsilon.getD FP.nan
    (mapMat (fun v => lg (FP.add v eps)) simu,
     mapMat (fun v => lg (FP.add v eps)) ev)
  else if transform = some "inv" then
    let eps := if !(epsTruthy epsilon) then defaultEps ev else epsilon.getD FP.nan
    (mapMat (fun v => FP.div (FP.val 1) (FP.add v eps)) simu,
     mapMat (fun v => FP.div (FP.val 1) (FP.add v eps)) ev)
  else if transform = some "sqrt" then
    (mapMat sq simu, mapMat sq ev)
  else
    (simu, ev)

/-- Re-orientation of the objective-function result (`evaluator`,
lines 152-156): returned as computed for `axis = 0`, transposed for
`axis = 1`. -/
def orient (axis : Nat) (a : NDArray) : NDArray :=
  if axis = 0 then a else a.T

/-- Shallow embedding of `hydroeval.evaluator`. The objective function
`obj_fn` is a parameter in the source as well; raised `Exception`s (and the
failure of the `assert` on `axis`) are embedded as `Except.error` with the
source's message. -/
def evaluator (lg sq : FP → FP)
    (obj_fn : List (List FP) → List (List FP) → NDArray)
    (simulations evaluation : NDArray) (axis : Nat)
    (transform : Option String) (epsilon : Option FP) :
    Except String NDArray :=
  if ¬(axis = 0 ∨ axis = 1) then .error "AssertionError"
  else
    let my_eval := normShape evaluation axis
    if cols my_eval ≠ 1 then .error "evaluation array is not flat"
    else
      let my_simu := normShape simulations axis
      if my_simu.length ≠ my_eval.length then
        .error "simulation and evaluation arrays feature incompatible dimensions"
      else
        let pd := pairwiseDelete my_simu my_eval
        let tr := applyTransform lg sq transform epsilon pd.1 pd.2
        .ok (orient axis (obj_fn tr.1 tr.2))

/-- Applying a mask obtained by mapping a predicate over one list to any
second list of the same length keeps exactly the elements at the positions
where the predicate holds, in their original order. -/
theorem maskFilter_map {α β : Type} (P : α → Bool) (d : α) (d' : β) :
    ∀ (e : List α) (s : List β), s.length = e.length →
      maskFilter (e.map P) s
        = ((List.range e.length).filter (fun i => P (e.getD i d))).map
            (fun i => s.getD i d') := by
  intro e
  induction e with
  | nil =>
      intro s h
      have hs : s = [] := List.length_eq_zero.mp h
      subst hs
      rfl
  | cons a e' ih =>
      intro s h
      cases s with
      | nil => simp at h
      | cons b s' =>
          have h' : s'.length = e'.length := by simpa using h
          have key := ih s' h'
          simp only [maskFilter] at key ⊢
          simp only [List.map_cons, List.zip_cons_cons, List.filter_cons,
            List.length_cons, List.range_succ_eq_map, List.filter_map,
            List.map_map, List.getD_cons_zero, Function.comp_def,
            Nat.succ_eq_add_one, List.getD_cons_succ]
          by_cases hPa : P a = true
          · simp only [hPa, if_true, List.map_cons, List.getD_cons_zero, key,
              List.map_map, Function.comp_def, Nat.succ_eq_add_one,
              List.getD_cons_succ]
          · simp only [hPa, Bool.false_eq_true, if_false, key, List.map_map,
              Function.comp_def, Nat.succ_eq_add_one, List.getD_cons_succ]

/-- C1: for normalised simulation and evaluation matrices of equal row
count, pairwise deletion retains exactly the rows (in their original order)
whose evaluation column value is not nan, and it applies this same mask to
both matrices, irrespective of the simulation values at those rows. -/
theorem pairwise_deletion_exact (s e : List (List FP))
    (h : s.length = e.length) :
    (pairwiseDelete s e).1
        = ((List.range e.length).filter
            (fun i => !(FP.isnan ((e.getD i []).headD (FP.val 0))))).map
            (fun i => s.getD i [])
      ∧ (pairwiseDelete s e).2
        = ((List.range e.length).filter
            (fun i => !(FP.isnan ((e.getD i []).headD (FP.val 0))))).map
            (fun i => e.getD i []) := by
  constructor
  · simpa [pairwiseDelete, delMask] using
      maskFilter_map (fun r => !(FP.isnan (r.headD (FP.val 0)))) [] [] e s h
  · simpa [pairwiseDelete, delMask] using
      maskFilter_map (fun r => !(FP.isnan (r.headD (FP.val 0)))) [] [] e e rfl

/-- Witness for C1 at a concrete input in which the simulation itself holds
a nan at a retained row and a plain value at the dropped row. -/
theorem pairwise_deletion_exact_witness :
    ([[FP.nan], [FP.val 5], [FP.val 6]] : List (List FP)).length
        = ([[FP.val 1], [FP.nan], [FP.val 3]] : List (List FP)).length
      ∧ ((pairwiseDelete [[FP.nan], [FP.val 5], [FP.val 6]]
            [[FP.val 1], [FP.nan], [FP.val 3]]).1
          = ((List.range ([[FP.val 1], [FP.nan], [FP.val 3]] :
                List (List FP)).length).filter
              (fun i => !(FP.isnan ((([[FP.val 1], [FP.nan], [FP.val 3]] :
                List (List FP)).getD i []).headD (FP.val 0))))).map
              (fun i => ([[FP.nan], [FP.val 5], [FP.val 6]] :
                List (List FP)).getD i [])
        ∧ (pairwiseDelete [[FP.nan], [FP.val 5], [FP.val 6]]
            [[FP.val 1], [FP.nan], [FP.val 3]]).2
          = ((List.range ([[FP.val 1], [FP.nan], [FP.val 3]] :
                List (List FP)).length).filter
              (fun i => !(FP.isnan ((([[FP.val 1], [FP.nan], [FP.val 3]] :
                List (List FP)).getD i []).headD (FP.val 0))))).map
              (fun i => ([[FP.val 1], [FP.nan], [FP.val 3]] :
                List (List FP)).getD i [])) :=
  ⟨by decide, pairwise_deletion_exact _ _ (by decide)⟩

/-- Sample element-wise primitive used by concrete witnesses. -/
def idFP : FP → FP := fun v => v

/-- Sample objective function used by concrete witnesses. -/
def objConcat : List (List FP) → List (List FP) → NDArray :=
  fun s e => .one (s.flatten ++ e.flatten)

/-- C4: a 1D evaluation array of length N behaves exactly like the same
data reshaped into an N by 1 column, all other arguments equal
(`axis = 0`). -/
theorem evaluator_eval_1d (lg sq : FP → FP)
    (obj_fn : List (List FP) → List (List FP) → NDArray)
    (S : NDArray) (l : List FP) (t : Option String) (ε : Option FP) :
    evaluator lg sq obj_fn S (.one l) 0 t ε
      = evaluator lg sq obj_fn S (.two (l.map (fun v => [v]))) 0 t ε := by
  simp [evaluator, normShape]

/-- C5: when the normalised simulation and evaluation matrices have
different row counts, `evaluator` fails with the incompatible-dimensions
error, for every objective function, transform and epsilon — so nothing is
truncated and no score is computed. -/
theorem evaluator_length_mismatch (lg sq : FP → FP)
    (obj_fn : List (List FP) → List (List FP) → NDArray)
    (S E : NDArray) (axis : Nat) (t : Option String) (ε : Option FP)
    (hax : axis = 0 ∨ axis = 1)
    (hflat : cols (normShape E axis) = 1)
    (hlen : (normShape S axis).length ≠ (normShape E axis).length) :
    evaluator lg sq obj_fn S E axis t ε
      = .error "simulation and evaluation arrays feature incompatible dimensions" := by
  rcases hax with rfl | rfl <;> simp [evaluator, hflat, hlen]

/-- Witness for C5: a length-1 simulation against a length-2 evaluation. -/
theorem evaluator_length_mismatch_witness :
    ((0 : Nat) = 0 ∨ (0 : Nat) = 1)
      ∧ cols (normShape (.one [FP.val 0, FP.val 1]) 0) = 1
      ∧ (normShape (.one [FP.val 0]) 0).length
          ≠ (normShape (.one [FP.val 0, FP.val 1]) 0).length
      ∧ evaluator idFP idFP objConcat (.one [FP.val 0])
          (.one [FP.val 0, FP.val 1]) 0 none none
        = .error "simulation and evaluation arrays feature incompatible dimensions" :=
  ⟨Or.inl rfl, by decide, by decide,
    evaluator_length_mismatch _ _ _ _ _ _ _ _ (Or.inl rfl) (by decide) (by decide)⟩

/-- C6: when the normalised evaluation matrix does not have exactly one
column, `evaluator` fails with the not-flat error, for every objective
function, transform and epsilon. -/
theorem evaluator_eval_not_flat (lg sq : FP → FP)
    (obj_fn : List (List FP) → List (List FP) → NDArray)
    (S E : NDArray) (axis : Nat) (t : Option String) (ε : Option FP)
    (hax : axis = 0 ∨ axis = 1)
    (hflat : cols (normShape E axis) ≠ 1) :
    evaluator lg sq obj_fn S E axis t ε
      = .error "evaluation array is not flat" := by
  rcases hax with rfl | rfl <;> simp [evaluator, hflat]

/-- Witness for C6: an evaluation array of shape (10, 2) on `axis = 0`. -/
theorem evaluator_eval_not_flat_witness :
    ((0 : Nat) = 0 ∨ (0 : Nat) = 1)
      ∧ cols (normShape (.two (List.replicate 10 [FP.val 0, FP.val 0])) 0) ≠ 1
      ∧ evaluator idFP idFP objConcat
          (.one (List.replicate 10 (FP.val 0)))
          (.two (List.replicate 10 [FP.val 0, FP.val 0])) 0 none none
        = .error "evaluation array is not flat" :=
  ⟨Or.inl rfl, by decide,
    evaluator_eval_not_flat _ _ _ _ _ _ _ _ (Or.inl rfl) (by decide)⟩

/-- C7: any transform argument other than "log", "inv" and "sqrt" (for
example any unrecognised string) is silently ignored: the call returns
exactly what the same call with no transform returns, and no error is
raised. -/
theorem evaluator_unknown_transform (lg sq : FP → FP)
    (obj_fn : List (List FP) → List (List FP) → NDArray)
    (S E : NDArray) (axis : Nat) (ε : Option FP) (t : Option String)
    (h1 : t ≠ some "log") (h2 : t ≠ some "inv") (h3 : t ≠ some "sqrt") :
    evaluator lg sq obj_fn S E axis t ε
      = evaluator lg sq obj_fn S E axis none ε := by
  simp [evaluator, applyTransform, h1, h2, h3]

/-- Witness for C7 at the unrecognised transform string "abc". -/
theorem evaluator_unknown_transform_witness :
    ((some "abc" : Option String) ≠ some "log"
        ∧ (some "abc" : Option String) ≠ some "inv"
        ∧ (some "abc" : Option String) ≠ some "sqrt")
      ∧ evaluator idFP idFP objConcat (.one [FP.val 1]) (.one [FP.val 2]) 0
          (some "abc") none
        = evaluator idFP idFP objConcat (.one [FP.val 1]) (.one [FP.val 2]) 0
          none none :=
  ⟨⟨by decide, by decide, by decide⟩,
    evaluator_unknown_transform _ _ _ _ _ _ _ _
      (by decide) (by decide) (by decide)⟩

/-- C10: a caller-supplied epsilon of 0.0 is falsy under the source's
`if not epsilon` presence check, so with the "log" (or "inv") transform the
call behaves exactly as if no epsilon had been given and the computed
default is used instead. -/
theorem evaluator_zero_epsilon (lg sq : FP → FP)
    (obj_fn : List (List FP) → List (List FP) → NDArray)
    (S E : NDArray) (axis : Nat) :
    (evaluator lg sq obj_fn S E axis (some "log") (some (FP.val 0))
        = evaluator lg sq obj_fn S E axis (some "log") none)
      ∧ (evaluator lg sq obj_fn S E axis (some "inv") (some (FP.val 0))
        = evaluator lg sq obj_fn S E axis (some "inv") none) := by
  have hz : epsTruthy (some (FP.val 0)) = false := by decide
  have hz' : (FP.val 0).truthy = false := by decide
  constructor <;> simp [evaluator, applyTransform, hz, hz', epsTruthy]

/-- The default epsilon as a function of the raw `evaluation` argument and
the axis: one hundredth of the mean of the post-deletion evaluation series
(which depends only on the evaluation input, never on the simulations). -/
def evalDefaultEps (E : NDArray) (axis : Nat) : FP :=
  defaultEps (maskFilter (delMask (normShape E axis)) (normShape E axis))

/-- Supplying the computed default epsilon explicitly leaves the transform
stage unchanged, for every transform: a falsy computed default is
recomputed to the same value, a truthy one is used as given. -/
theorem applyTransform_default (lg sq : FP → FP) (tf : Option String)
    (simu ev : List (List FP)) :
    applyTransform lg sq tf (some (defaultEps ev)) simu ev
      = applyTransform lg sq tf none simu ev := by
  by_cases ht : (defaultEps ev).truthy <;>
    simp [applyTransform, epsTruthy, ht]

/-- C2: with transform "log" (and likewise "inv") and no caller-supplied
epsilon, the epsilon used is 0.01 times the mean of the post-deletion
evaluation series: the call returns exactly what the explicit-epsilon call
with that computed value returns, and the transform replaces both matrices
element-wise with log(value + epsilon) (respectively
1 / (value + epsilon)) after pairwise deletion. -/
theorem evaluator_default_epsilon (lg sq : FP → FP)
    (obj_fn : List (List FP) → List (List FP) → NDArray)
    (S E : NDArray) (axis : Nat)
    (hax : axis = 0 ∨ axis = 1)
    (hflat : cols (normShape E axis) = 1)
    (hlen : (normShape S axis).length = (normShape E axis).length) :
    (evaluator lg sq obj_fn S E axis (some "log") none
        = evaluator lg sq obj_fn S E axis (some "log")
            (some (evalDefaultEps E axis)))
      ∧ (evaluator lg sq obj_fn S E axis (some "inv") none
        = evaluator lg sq obj_fn S E axis (some "inv")
            (some (evalDefaultEps E axis)))
      ∧ (evaluator lg sq obj_fn S E axis (some "log") none
        = .ok (orient axis (obj_fn
            (mapMat (fun v => lg (FP.add v (evalDefaultEps E axis)))
              (pairwiseDelete (normShape S axis) (normShape E axis)).1)
            (mapMat (fun v => lg (FP.add v (evalDefaultEps E axis)))
              (pairwiseDelete (normShape S axis) (normShape E axis)).2))))
      ∧ (evaluator lg sq obj_fn S E axis (some "inv") none
        = .ok (orient axis (obj_fn
            (mapMat (fun v => FP.div (FP.val 1)
                (FP.add v (evalDefaultEps E axis)))
              (pairwiseDelete (normShape S axis) (normShape E axis)).1)
            (mapMat (fun v => FP.div (FP.val 1)
                (FP.add v (evalDefaultEps E axis)))
              (pairwiseDelete (normShape S axis) (normShape E axis)).2)))) := by
  rcases hax with rfl | rfl <;>
    refine ⟨?_, ?_, ?_, ?_⟩ <;>
    simp [evaluator, hflat, hlen, evalDefaultEps, pairwiseDelete,
      applyTransform_default, applyTransform, epsTruthy]

/-- Witness for C2 at a concrete one-point series. -/
theorem evaluator_default_epsilon_witness :
    ((0 : Nat) = 0 ∨ (0 : Nat) = 1)
      ∧ cols (normShape (.one [FP.val 2]) 0) = 1
      ∧ (normShape (.one [FP.val 1]) 0).length
          = (normShape (.one [FP.val 2]) 0).length
      ∧ evaluator idFP idFP objConcat (.one [FP.val 1]) (.one [FP.val 2]) 0
          (some "log") none
        = evaluator idFP idFP objConcat (.one [FP.val 1]) (.one [FP.val 2]) 0
          (some "log") (some (evalDefaultEps (.one [FP.val 2]) 0)) :=
  ⟨Or.inl rfl, by decide, by decide,
    (evaluator_default_epsilon idFP idFP objConcat (.one [FP.val 1])
      (.one [FP.val 2]) 0 (Or.inl rfl) (by decide) (by decide)).1⟩

/-- Rebuilding a list from its positions recovers the list. -/
theorem range_map_getD (l : List FP) :
    (List.range l.length).map (fun j => l.getD j FP.nan) = l := by
  apply List.ext_getElem
  · simp
  · intro i h1 h2
    simp [List.getD_eq_getElem, List.getElem?_eq_getElem h2]

/-- A list of length `c' + 1` is its head followed by its remaining
positions. -/
theorem row_expand (row : List FP) (c' : Nat) (h : row.length = c' + 1) :
    row.getD 0 FP.nan
        :: (List.range c').map (fun j => row.getD (j + 1) FP.nan) = row := by
  cases row with
  | nil => simp at h
  | cons a row' =>
      have h' : row'.length = c' := by simpa using h
      subst h'
      simp only [List.getD_cons_zero, List.getD_cons_succ]
      rw [range_map_getD]

/-- Transposing a rectangular matrix with at least one column twice gives
back the matrix (as numpy's `.T` does on every 2D array). -/
theorem transposeM_transposeM (m : List (List FP)) (c : Nat)
    (hm : Rect m c) (hc : 0 < c) : transposeM (transposeM m) = m := by
  cases m with
  | nil => rfl
  | cons r m' =>
      have hcols : cols (r :: m') = c := hm r (List.mem_cons_self r m')
      obtain ⟨c', rfl⟩ : ∃ c', c = c' + 1 :=
        ⟨c - 1, (Nat.succ_pred_eq_of_pos hc).symm⟩
      have htm : transposeM (r :: m')
          = ((r :: m').map (fun row => row.getD 0 FP.nan))
            :: ((List.range c').map
                (fun j => (r :: m').map (fun row => row.getD (j + 1) FP.nan))) := by
        rw [transposeM, hcols, List.range_succ_eq_map, List.map_cons,
          List.map_map]
        simp [Function.comp_def, Nat.succ_eq_add_one]
      rw [htm]
      have hcols2 : cols (((r :: m').map (fun row => row.getD 0 FP.nan))
          :: ((List.range c').map
              (fun j => (r :: m').map (fun row => row.getD (j + 1) FP.nan))))
          = (r :: m').length := by
        simp [cols]
      rw [transposeM, hcols2]
      apply List.ext_getElem
      · simp
      · intro i h1 h2
        have h2' : i < (r :: m').length := by simpa using h2
        have hrowlen : (r :: m')[i].length = c' + 1 :=
          hm _ (List.getElem_mem h2')
        have hmap : ∀ (k : Nat),
            ((r :: m').map (fun row => row.getD k FP.nan)).getD i FP.nan
              = ((r :: m')[i]).getD k FP.nan := by
          intro k
          rw [List.getD_eq_getElem _ _ (by simpa using h2'),
            List.getElem_map]
        have key : (((r :: m').map (fun row => row.getD 0 FP.nan))
            :: ((List.range c').map
                (fun j => (r :: m').map (fun row => row.getD (j + 1) FP.nan)))).map
              (fun row => row.getD i FP.nan)
            = ((r :: m')[i]).getD 0 FP.nan
              :: (List.range c').map
                  (fun j => ((r :: m')[i]).getD (j + 1) FP.nan) := by
          rw [List.map_cons, List.map_map]
          refine congrArg₂ (· :: ·) (hmap 0) ?_
          refine List.map_congr_left ?_
          intro j _
          simpa using hmap (j + 1)
        simp only [List.getElem_map, List.getElem_range]
        rw [key]
        exact row_expand _ _ hrowlen

/-- C3: for 2D inputs, the `axis = 0` result equals the transpose of the
`axis = 1` result on the transposed inputs: the `axis = 1` path transposes
both matrices into the internal time-down-rows orientation and transposes
the objective-function result back before returning. -/
theorem evaluator_axis_symmetry (lg sq : FP → FP)
    (obj_fn : List (List FP) → List (List FP) → NDArray)
    (s e : List (List FP)) (cs ce : Nat)
    (hs : Rect s cs) (hcs : 0 < cs) (he : Rect e ce) (hce : 0 < ce)
    (hfn : ∀ a b, ((obj_fn a b).T).T = obj_fn a b)
    (t : Option String) (ε : Option FP) :
    evaluator lg sq obj_fn (.two s) (.two e) 0 t ε
      = Except.map NDArray.T
          (evaluator lg sq obj_fn (.two (transposeM s)) (.two (transposeM e))
            1 t ε) := by
  have hs2 : transposeM (transposeM s) = s := transposeM_transposeM s cs hs hcs
  have he2 : transposeM (transposeM e) = e := transposeM_transposeM e ce he hce
  simp only [evaluator, normShape, hs2, he2, orient, Except.map]
  norm_num
  by_cases h1 : cols e = 1 <;> by_cases h2 : s.length = e.length <;>
    simp [h1, h2, hfn]

/-- Witness for C3 at concrete 2 by 1 matrices. -/
theorem evaluator_axis_symmetry_witness :
    Rect [[FP.val 1], [FP.val 2]] 1 ∧ (0 : Nat) < 1
      ∧ Rect [[FP.val 3], [FP.val 4]] 1
      ∧ evaluator idFP idFP objConcat (.two [[FP.val 1], [FP.val 2]])
          (.two [[FP.val 3], [FP.val 4]]) 0 none none
        = Except.map NDArray.T
            (evaluator idFP idFP objConcat
              (.two (transposeM [[FP.val 1], [FP.val 2]]))
              (.two (transposeM [[FP.val 3], [FP.val 4]])) 1 none none) :=
  ⟨by simp [Rect], by decide, by simp [Rect],
    evaluator_axis_symmetry idFP idFP objConcat
      [[FP.val 1], [FP.val 2]] [[FP.val 3], [FP.val 4]] 1 1
      (by simp [Rect]) (by decide) (by simp [Rect]) (by decide)
      (fun a b => rfl) none none⟩

/-- Modelled from the spec: the objective-function module (the `nse`,
`kge`, `kgeprime`, `kgenp` functions and their `*_c2m` variants) is not
among the sources available here; §4.2 of the spec defines the c2m bounding
transform as score/(2 − score), mapping the base-score range (−∞, 1] to
(−1, 1]. -/
def c2m (s : ℚ) : ℚ := s / (2 - s)

/-- Modelled from the spec: the NSE denominator, the sum of the squared
deviations of the evaluation series from its mean (§4.2). -/
def nseDen (ev : List ℚ) : ℚ :=
  (ev.map (fun x => (x - ev.sum / ev.length) ^ 2)).sum

/-- Modelled from the spec: the NSE formula of §4.2 for one simulated
series, in exact arithmetic. -/
def nse (simu ev : List ℚ) : ℚ :=
  1 - ((simu.zip ev).map (fun p => (p.1 - p.2) ^ 2)).sum / nseDen ev

/-- Modelled from the spec: a `*_c2m` variant applies the c2m bounding
transform to the base score. -/
def nse_c2m (simu ev : List ℚ) : ℚ := c2m (nse simu ev)

/-- C9: every finite base score of the NSE/KGE family lies in (−∞, 1], and
on that range the c2m variant returns score/(2 − score), which lies in
(−1, 1]; instantiated concretely for NSE (whose score is at most 1 whenever
it is finite, i.e. whenever its denominator is nonzero). -/
theorem c2m_bounded (simu ev : List ℚ) (s : ℚ)
    (hs : s ≤ 1) (hden : 0 < nseDen ev) :
    (c2m s = s / (2 - s) ∧ -1 < c2m s ∧ c2m s ≤ 1)
      ∧ nse simu ev ≤ 1
      ∧ nse_c2m simu ev = c2m (nse simu ev)
      ∧ -1 < nse_c2m simu ev ∧ nse_c2m simu ev ≤ 1 := by
  have h2 : ∀ x : ℚ, x ≤ 1 → -1 < c2m x ∧ c2m x ≤ 1 := by
    intro x hx
    have hpos : 0 < 2 - x := by linarith
    constructor
    · rw [c2m, lt_div_iff₀ hpos]
      linarith
    · rw [c2m, div_le_one hpos]
      linarith
  have hnse : nse simu ev ≤ 1 := by
    have hnum : 0 ≤ ((simu.zip ev).map (fun p => (p.1 - p.2) ^ 2)).sum := by
      apply List.sum_nonneg
      intro x hx
      obtain ⟨p, hp, rfl⟩ := List.mem_map.mp hx
      exact sq_nonneg _
    have hq : 0 ≤ ((simu.zip ev).map (fun p => (p.1 - p.2) ^ 2)).sum / nseDen ev :=
      div_nonneg hnum (le_of_lt hden)
    rw [nse]
    linarith
  exact ⟨⟨rfl, h2 s hs⟩, hnse, rfl, h2 _ hnse⟩

/-- Witness for C9 at the base score 0 and a concrete two-point series. -/
theorem c2m_bounded_witness :
    ((0 : ℚ) ≤ 1 ∧ 0 < nseDen [0, 2])
      ∧ ((c2m 0 = 0 / (2 - 0) ∧ -1 < c2m 0 ∧ c2m 0 ≤ 1)
        ∧ nse [1, 2] [0, 2] ≤ 1
        ∧ nse_c2m [1, 2] [0, 2] = c2m (nse [1, 2] [0, 2])
        ∧ -1 < nse_c2m [1, 2] [0, 2] ∧ nse_c2m [1, 2] [0, 2] ≤ 1) :=
  ⟨⟨by norm_num, by norm_num [nseDen]⟩,
    c2m_bounded [1, 2] [0, 2] 0 (by norm_num) (by norm_num [nseDen])⟩

end HydroEval
